import Mathlib

/-!
Shallow embedding of the vue-ssr-build route/store integration layer
(`src/entry-client.js`, `src/entry-server.js`, `src/utils.js`) and proofs
about its route-update gate, Vuex module lifecycle queue, and fetch pipeline.

JavaScript values that flow through the gate policy, the fetch pipeline and
the error-normalisation path are modelled by the inductive `JSValue`;
machine-level details that the code never observes (prototypes, getters) are
out of scope.  Stateful collaborator calls (`store.registerModule`,
`store.unregisterModule`, logging) are modelled as an explicit event trace
plus an explicit store state threaded through each hook body.
-/

/-- A JavaScript value as observed by this integration layer: `undefined`,
`null`, booleans, numbers, strings, plain objects (ordered key/value lists)
and `Error` instances (identified by their message). -/
inductive JSValue where
  | undefined : JSValue
  | nullv : JSValue
  | bool : Bool → JSValue
  | num : Int → JSValue
  | str : String → JSValue
  | obj : List (String × JSValue) → JSValue
  | error : String → JSValue
deriving Repr

mutual
/-- Structural equality on `JSValue` (automatic deriving does not handle the
nested list, so it is spelled out). -/
def JSValue.beq : JSValue → JSValue → Bool
  | .undefined, .undefined => true
  | .nullv, .nullv => true
  | .bool a, .bool b => a == b
  | .num a, .num b => a == b
  | .str a, .str b => a == b
  | .obj a, .obj b => JSValue.beqFields a b
  | .error a, .error b => a == b
  | _, _ => false

/-- Pointwise `JSValue.beq` over object fields. -/
def JSValue.beqFields : List (String × JSValue) → List (String × JSValue) → Bool
  | [], [] => true
  | (k1, v1) :: r1, (k2, v2) :: r2 =>
      k1 == k2 && JSValue.beq v1 v2 && JSValue.beqFields r1 r2
  | _, _ => false
end

instance : BEq JSValue := ⟨JSValue.beq⟩

/-- A route record as consumed by this core: `name` may be absent
(`undefined`), `path`, `query` (key→value mapping, modelled with keys in a
canonical order since the code only compares queries by deep equality),
`hash`, and `fullPath` (used in log messages). -/
structure Route where
  name : Option String := none
  path : String := "/"
  query : List (String × String) := []
  hash : String := ""
  fullPath : String := "/"
deriving DecidableEq, Repr

/-- The context record built by `getFetchDataArgs` and threaded through gate
evaluation, middleware and fetch calls.  The `ssrContext`/`app`/`router`/
`store` handles it also carries are opaque to every decision made by this
core, so only the two route fields are modelled. -/
structure FetchDataArgs where
  fromRoute : Route
  route : Route
deriving DecidableEq, Repr

/-- A component's `shouldProcessRouteUpdate` declaration: absent, the object
shorthand (each field absent or an arbitrary JS value, since a spread can
install non-boolean values), or the function long form. -/
inductive Policy where
  | undefPolicy : Policy
  | objPolicy : Option JSValue → Option JSValue → Option JSValue → Policy
  | fnPolicy : (FetchDataArgs → JSValue) → Policy

/-- Field `vuexModuleDef.moduleName`: either a literal string or a function of the
route context object (a JS object, modelled as a key/value list so that the
key the code uses — `$route` — is observable). -/
inductive ModuleNameSpec where
  | strName : String → ModuleNameSpec
  | fnName : (List (String × Route) → String) → ModuleNameSpec

/-- One entry of a component's `vuex` declaration; the store-module
definition itself is opaque and identified by a number. -/
structure VuexModuleDef where
  moduleName : ModuleNameSpec
  module : Nat

/-- A matched view component: optional `vuex` declarations (the code's
`flatMap` flattens a single declaration and an array alike, so both are
modelled as a list), an optional `shouldProcessRouteUpdate` policy, and an
optional `fetchData` whose outcome is a resolution or a rejection value. -/
structure Component where
  shouldProcessRouteUpdate : Policy := .undefPolicy
  vuex : Option (List VuexModuleDef) := none
  fetchData : Option (Except JSValue JSValue) := none

/-- Shared object-shorthand check of `shouldProcessRouteUpdate`: the default
policy `{path: true, query: false, hash: false}` overridden by whichever
fields the component's object supplies (a field present with value
`undefined` still overrides, as a JS spread does), each field then compared
strictly (`=== true`) before its route comparison. -/
def mergedPolicyCheck (p q h : Option JSValue) (args : FetchDataArgs) : Bool :=
  let path := p.getD (JSValue.bool true)
  let query := q.getD (JSValue.bool false)
  let hash := h.getD (JSValue.bool false)
  (path == JSValue.bool true && args.fromRoute.path != args.route.path)
  || (query == JSValue.bool true && args.fromRoute.query != args.route.query)
  || (hash == JSValue.bool true && args.fromRoute.hash != args.route.hash)

/-- Embeds `shouldProcessRouteUpdate(c, fetchDataArgs)` from `entry-client.js`:
always process transitions between distinct routing-table entries; delegate
to a function policy (strict comparison with `true`); otherwise merge the
default object policy with the component's and compare the enabled fields. -/
def shouldProcessRouteUpdate (c : Component) (args : FetchDataArgs) : Bool :=
  if args.fromRoute.name ≠ args.route.name then
    true
  else
    match c.shouldProcessRouteUpdate with
    | .fnPolicy f => f args == JSValue.bool true
    | .undefPolicy => mergedPolicyCheck none none none args
    | .objPolicy p q h => mergedPolicyCheck p q h args

/-- JavaScript `string.split('/')` on the underlying character list:
`"a/b" → ["a","b"]`, `"" → [""]`, `"/a" → ["", "a"]`, `"a//b" → ["a","","b"]`. -/
def splitSlashList : List Char → List (List Char)
  | [] => [[]]
  | c :: cs =>
    if c = '/' then [] :: splitSlashList cs
    else
      match splitSlashList cs with
      | [] => [[c]]
      | seg :: rest => (c :: seg) :: rest

/-- Embeds `name.split('/')` as used throughout the source. -/
def jsSplitSlash (s : String) : List String :=
  (splitSlashList s.data).map String.mk

/-- The nested-state tree held by the Vuex store: `null`, `undefined`,
objects, or a primitive leaf whose only observed property here is its
truthiness. -/
inductive JSState where
  | nullv : JSState
  | undefined : JSState
  | obj : List (String × JSState) → JSState
  | prim : Bool → JSState

/-- JavaScript truthiness of a state node (objects are always truthy). -/
def JSState.truthy : JSState → Bool
  | .nullv => false
  | .undefined => false
  | .obj _ => true
  | .prim b => b

/-- JavaScript property access `acc[k]`: a present key of an object yields
its value, everything else yields `undefined`. -/
def JSState.index (s : JSState) (k : String) : JSState :=
  match s with
  | .obj entries => (entries.lookup k).getD .undefined
  | _ => .undefined

/-- JavaScript loose `x != null`: false exactly for `null` and `undefined`. -/
def JSState.isNonNull : JSState → Bool
  | .nullv => false
  | .undefined => false
  | _ => true

/-- The Vuex store collaborator: the set of dynamically registered module
paths (driving `hasModule`) and the nested state tree (read by
`getModuleState`). -/
structure Store where
  modules : List (List String) := []
  state : JSState := .obj []

/-- Embeds `store.hasModule(nameArr)`. -/
def Store.hasModule (st : Store) (p : List String) : Bool :=
  st.modules.contains p

/-- Embeds `store.registerModule(nameArr, ...)` as far as this core observes it:
afterwards the store has a module at that path.  (Vuex holds at most one
module per path, which the caller guarantees by checking `hasModule`.) -/
def Store.registerModule (st : Store) (p : List String) : Store :=
  { st with modules := st.modules ++ [p] }

/-- Embeds `store.unregisterModule(nameArr)`: the module at that path is removed. -/
def Store.unregisterModule (st : Store) (p : List String) : Store :=
  { st with modules := st.modules.erase p }

/-- Observable collaborator calls made by the lifecycle hooks, in order. -/
inductive StoreEvent where
  | registerModuleEv : List String → Nat → Bool → StoreEvent
  | unregisterModuleEv : List String → StoreEvent
  | logInfoEv : String → StoreEvent
deriving DecidableEq, Repr

/-- Embeds `getModuleName(vuexModuleDef, route)` from `utils.js`: a function-valued
`moduleName` is invoked with the object `{ $route: route }`, otherwise the
literal string is used. -/
def getModuleName (vuexModuleDef : VuexModuleDef) (route : Route) : String :=
  match vuexModuleDef.moduleName with
  | .fnName f => f [("$route", route)]
  | .strName s => s

/-- Embeds `getModuleState(store, nameArr)` from `utils.js`:
`nameArr.reduce((acc, k) => (acc ? acc[k] : null), store.state)`. -/
def getModuleState (store : Store) (nameArr : List String) : JSState :=
  nameArr.foldl (fun acc k => if acc.truthy then acc.index k else .nullv) store.state

/-- Embeds `safelyRegisterModule(store, name, vuexModule, logger)` from `utils.js`:
split the name on `/`; if the store already has a module at that path only
log the skip, otherwise register it with `preserveState` set to whether the
looked-up module state is non-null.  Returns the updated store and the
emitted collaborator calls. -/
def safelyRegisterModule (store : Store) (name : String) (vuexModule : Nat) :
    Store × List StoreEvent :=
  let nameArr := jsSplitSlash name
  if store.hasModule nameArr then
    (store, [.logInfoEv s!"Skipping duplicate dynamic Vuex module registration: {name}"])
  else
    let preserve := (getModuleState store nameArr).isNonNull
    (store.registerModule nameArr,
      [.logInfoEv s!"Registering dynamic Vuex module: {name}",
       .registerModuleEv nameArr vuexModule preserve])

/-- Modelled from the spec: `getMatchedComponents` itself is part of
`utils.js` that is not in the sources here; per the spec the router supplies
"a matched-components accessor for a given route", so the hooks below are
parameterised over that accessor and this function merely applies it. -/
def getMatchedComponents (matcher : Route → List Component) (r : Route) : List Component :=
  matcher r

/-- The module names referenced by a route's matched components carrying
`vuex` declarations (the `toModuleNames`/`fromModuleNames` computation of the
`afterEach` hook in `entry-client.js`). -/
def routeModuleNames (matcher : Route → List Component) (r : Route) : List String :=
  (((getMatchedComponents matcher r).filter (fun c => c.vuex.isSome)).flatMap
    (fun c => c.vuex.getD [])).map (fun d => getModuleName d r)

/-- Result of draining the removal queue. -/
structure DrainResult where
  store : Store
  requeue : List String
  events : List StoreEvent

/-- The `while (queuedRemovalModules.length > 0)` drain loop of the
`afterEach` hook, processing `names` in pop order (the caller passes the
queue reversed): an active name (member of `toModuleNames ++
fromModuleNames`) is moved to the requeue list; otherwise the module is
unregistered when present, and silently skipped (log only) when absent. -/
def drainLoop (active : List String) (store : Store) : List String → DrainResult
  | [] => ⟨store, [], []⟩
  | name :: rest =>
    let nameArr := jsSplitSlash name
    if active.contains name then
      let r := drainLoop active store rest
      ⟨r.store, name :: r.requeue,
        .logInfoEv s!"Skipping deregistration for active dynamic Vuex module: {name}" :: r.events⟩
    else if store.hasModule nameArr then
      let r := drainLoop active (store.unregisterModule nameArr) rest
      ⟨r.store, r.requeue,
        .logInfoEv s!"Unregistering dynamic Vuex module: {name}"
          :: .unregisterModuleEv nameArr :: r.events⟩
    else
      let r := drainLoop active store rest
      ⟨r.store, r.requeue,
        .logInfoEv s!"No existing dynamic module to unregister: {name}" :: r.events⟩

/-- lodash `uniq`: de-duplicate keeping the first occurrence. -/
def uniqJS : List String → List String :=
  go []
where
  /-- Auxiliary loop carrying the names already emitted. -/
  go (seen : List String) : List String → List String
    | [] => []
    | x :: xs => if seen.contains x then go seen xs else x :: go (x :: seen) xs

/-- The sort key `m => m.split('/').length` of the queue recompute. -/
def depthOf (m : String) : Nat :=
  (jsSplitSlash m).length

/-- Stable insertion of a name into a depth-sorted list (goes before the
first strictly deeper entry). -/
def insertByDepth (x : String) : List String → List String
  | [] => [x]
  | y :: ys => if depthOf x ≤ depthOf y then x :: y :: ys else y :: insertByDepth x ys

/-- lodash `sortBy(list, [m => m.split('/').length])`: a stable ascending
sort by path-segment depth, realised as a stable insertion sort. -/
def sortByDepth : List String → List String
  | [] => []
  | x :: xs => insertByDepth x (sortByDepth xs)

/-- Result of one `afterEach` hook invocation. -/
structure AfterEachResult where
  store : Store
  events : List StoreEvent
  queue : List String

/-- The `router.afterEach` hook body installed by `useRouteVuexModulesClient`
(`entry-client.js`): gate check over all matched destination components;
compute `toModuleNames`/`fromModuleNames`; drain the removal queue from its
tail; then queue the de-duplicated, depth-sorted union of the requeued names
and `fromModuleNames` for the next route. -/
def useRouteVuexModulesClientAfterEach (matcher : Route → List Component)
    (toR fromR : Route) (store : Store) (queuedRemovalModules : List String) :
    AfterEachResult :=
  let args : FetchDataArgs := { fromRoute := fromR, route := toR }
  let shouldProcess :=
    ((getMatchedComponents matcher toR).filter
      (fun c => shouldProcessRouteUpdate c args)).length > 0
  if !shouldProcess then
    ⟨store, [], queuedRemovalModules⟩
  else
    let toModuleNames := routeModuleNames matcher toR
    let fromModuleNames := routeModuleNames matcher fromR
    let r := drainLoop (toModuleNames ++ fromModuleNames) store queuedRemovalModules.reverse
    let nextRouteRemovals := uniqJS (r.requeue ++ fromModuleNames)
    let sortedRouteRemovals := sortByDepth nextRouteRemovals
    ⟨r.store, r.events, sortedRouteRemovals⟩

/-- The `router.beforeResolve` hook body installed by
`useRouteVuexModulesClient` (`entry-client.js`): for the destination route's
matched components that declare `vuex` and pass the gate, resolve each
module name against the destination route and register it through
`safelyRegisterModule`. -/
def useRouteVuexModulesClientBeforeResolve (matcher : Route → List Component)
    (toR fromR : Route) (store : Store) : Store × List StoreEvent :=
  let args : FetchDataArgs := { fromRoute := fromR, route := toR }
  let defs :=
    (((getMatchedComponents matcher toR).filter (fun c => c.vuex.isSome)).filter
      (fun c => shouldProcessRouteUpdate c args)).flatMap (fun c => c.vuex.getD [])
  defs.foldl
    (fun acc d =>
      let r := safelyRegisterModule acc.1 (getModuleName d toR) d.module
      (r.1, acc.2 ++ r.2))
    (store, [])

/-- Embeds `useRouteVuexModulesServer(router, store, logger)` (`entry-server.js`):
one-shot registration of every module declared by every component matched by
the router's current route, with no gate. -/
def useRouteVuexModulesServer (components : List Component) (currentRoute : Route)
    (store : Store) : Store × List StoreEvent :=
  ((components.filter (fun c => c.vuex.isSome)).flatMap (fun c => c.vuex.getD [])).foldl
    (fun acc d =>
      let r := safelyRegisterModule acc.1 (getModuleName d currentRoute) d.module
      (r.1, acc.2 ++ r.2))
    (store, [])

/-- The `opts` record of the fetch pipelines; each hook, when present, is an
already-settled outcome (a resolution or a rejection value). -/
structure FetchOpts where
  middleware : Option (Except JSValue JSValue) := none
  globalFetchData : Option (Except JSValue JSValue) := none
  postMiddleware : Option (Except JSValue JSValue) := none

/-- Observable actions of the client fetch pipeline's `beforeResolve` hook,
in order: hook invocations, logger calls, and the continuation call
(`nextCall none` is an argument-less `next()`). -/
inductive FetchEvent where
  | middlewareCall : FetchEvent
  | globalFetchDataCall : FetchEvent
  | fetchDataCall : Nat → FetchEvent
  | postMiddlewareCall : FetchEvent
  | logDebugEv : String → FetchEvent
  | logWarnEv : String → FetchEvent
  | nextCall : Option JSValue → FetchEvent

/-- Models `Promise.all` over already-settled outcomes: the values in order, or the
first rejection. -/
def promiseAll : List (Except JSValue JSValue) → Except JSValue (List JSValue)
  | [] => .ok []
  | x :: xs =>
    match x with
    | .error e => .error e
    | .ok v => (promiseAll xs).map (v :: ·)

/-- JSON string quoting (quotes and backslashes escaped; the strings this
program stringifies contain no other escape-worthy characters). -/
def jsonQuote (s : String) : String :=
  "\"" ++ String.join (s.data.map (fun c =>
    if c = '"' then "\\\"" else if c = '\\' then "\\\\" else String.mk [c])) ++ "\""

mutual
/-- Models `JSON.stringify` on the modelled values; `none` models the call
returning `undefined` (stringifying `undefined` itself).  Error instances
have no enumerable own properties, hence `"\x7b\x7d"`. -/
def jsonStringify : JSValue → Option String
  | .undefined => none
  | .nullv => some "null"
  | .bool b => some (if b then "true" else "false")
  | .num n => some (toString n)
  | .str s => some (jsonQuote s)
  | .error _ => some "\x7b\x7d"
  | .obj entries => some ("\x7b" ++ String.intercalate "," (jsonFields entries) ++ "\x7d")

/-- The serialised `"key":value` fields of an object; keys whose value
stringifies to `undefined` are skipped, as `JSON.stringify` does. -/
def jsonFields : List (String × JSValue) → List String
  | [] => []
  | (k, v) :: rest =>
    match jsonStringify v with
    | some sv => (jsonQuote k ++ ":" ++ sv) :: jsonFields rest
    | none => jsonFields rest
end

/-- The `catch` arm of the client fetch pipeline: an `Error` rejection is
passed through, a string rejection is wrapped in `new Error(string)`, any
other value is wrapped in `new Error(JSON.stringify(value))`.  (The nested
`catch (e2)` branch guards against `JSON.stringify` itself throwing, which
cannot happen for the finite values modelled here; `new Error(undefined)`
leaves the message empty.) -/
def normalizeClientFetchError (e : JSValue) : JSValue :=
  match e with
  | .error m => .error m
  | .str s => .error s
  | _ => .error ((jsonStringify e).getD "")

/-- JavaScript loose `r != null` on pipeline results. -/
def jsNotNull (v : JSValue) : Bool :=
  match v with
  | .undefined => false
  | .nullv => false
  | _ => true

/-- The two logger/continuation calls of the client pipeline's `catch`. -/
def clientCatchEvents (e : JSValue) : List FetchEvent :=
  [.logWarnEv "Error fetching component data, preventing routing",
   .nextCall (some (normalizeClientFetchError e))]

/-- The `${from.fullPath} -> ${to.fullPath}` string used in the client fetch
pipeline's log messages. -/
def routeUpdateString (toR fromR : Route) : String :=
  s!"{fromR.fullPath} -> {toR.fullPath}"

/-- The `router.beforeResolve` hook body installed by `useFetchDataClient`
(`entry-client.js`): gate-filter the destination's matched components;
short-circuit with a bare `next()` if none remain; otherwise await
`opts.middleware`, run `opts.globalFetchData` and every component
`fetchData` concurrently, await `opts.postMiddleware`, and call `next` with
the first non-null result — any rejection flows to the normalising catch.
All step-2 calls are made eagerly when the `Promise.all` array is built, so
their invocation events precede the aggregate await's outcome. -/
def useFetchDataClientResolve (matcher : Route → List Component)
    (opts : Option FetchOpts) (toR fromR : Route) : List FetchEvent :=
  let routeUpdateStr := routeUpdateString toR fromR
  let args : FetchDataArgs := { fromRoute := fromR, route := toR }
  let components :=
    (getMatchedComponents matcher toR).filter (fun c => shouldProcessRouteUpdate c args)
  if components.length = 0 then
    [.logDebugEv s!"Ignoring route update {routeUpdateStr}", .nextCall none]
  else
    let preEvents : List FetchEvent :=
      [.logDebugEv s!"Running middleware/fetchData for route update {routeUpdateStr}"]
    match opts.bind FetchOpts.middleware with
    | some (.error e) => preEvents ++ [.middlewareCall] ++ clientCatchEvents e
    | mw =>
      let mwEvents : List FetchEvent := if mw.isSome then [.middlewareCall] else []
      let gfd := opts.bind FetchOpts.globalFetchData
      let callEvents : List FetchEvent :=
        (if gfd.isSome then [.globalFetchDataCall] else [])
          ++ components.enum.filterMap
              (fun ic => if ic.2.fetchData.isSome then some (.fetchDataCall ic.1) else none)
      let arr := (match gfd with | some r => r | none => .ok .undefined)
        :: components.map (fun c => match c.fetchData with | some r => r | none => .ok .undefined)
      match promiseAll arr with
      | .error e => preEvents ++ mwEvents ++ callEvents ++ clientCatchEvents e
      | .ok results =>
        match opts.bind FetchOpts.postMiddleware with
        | some (.error e) =>
            preEvents ++ mwEvents ++ callEvents ++ [.postMiddlewareCall] ++ clientCatchEvents e
        | pm =>
          let pmEvents : List FetchEvent := if pm.isSome then [.postMiddlewareCall] else []
          preEvents ++ mwEvents ++ callEvents ++ pmEvents
            ++ [.nextCall (some ((results.find? jsNotNull).getD .undefined))]

/-- Embeds `useFetchDataServer(ssrContext, app, router, store, opts)`
(`entry-server.js`): the same middleware → concurrent fetch →
post-middleware sequence for the router's current route's matched
components, with no gate, no `next` continuation and no error
normalisation — the first rejection propagates unchanged to the caller. -/
def useFetchDataServer (opts : Option FetchOpts) (components : List Component) :
    Except JSValue Unit :=
  match opts.bind FetchOpts.middleware with
  | some (.error e) => .error e
  | _ =>
    let arr := (match opts.bind FetchOpts.globalFetchData with
        | some r => r
        | none => .ok .undefined)
      :: components.map (fun c => match c.fetchData with | some r => r | none => .ok .undefined)
    match promiseAll arr with
    | .error e => .error e
    | .ok _ =>
      match opts.bind FetchOpts.postMiddleware with
      | some (.error e) => .error e
      | _ => .ok ()

/-- Specification-side key-by-key lookup in the state tree: descend through
object keys, failing when a key is missing or a non-object is reached. -/
def lookupPath : JSState → List String → Option JSState
  | s, [] => some s
  | .obj es, k :: ks =>
    match es.lookup k with
    | some v => lookupPath v ks
    | none => none
  | _, _ :: _ => none

/-- Specification-side reading of the `preserveState` rule: the store's
state tree holds a non-null value at the target path when looked up
key-by-key along the path segments. -/
def specPreserveState (store : Store) (p : List String) : Bool :=
  match lookupPath store.state p with
  | some v => v.isNonNull
  | none => false

/-- Module-name resolution as the claim words it: a function-valued
`moduleName` "is invoked with the single argument `{route: destinationRoute}`"
— i.e. with the key `route` — to be compared against `getModuleName`, which
follows the source. -/
def claimGetModuleName (vuexModuleDef : VuexModuleDef) (route : Route) : String :=
  match vuexModuleDef.moduleName with
  | .fnName f => f [("route", route)]
  | .strName s => s

/-- A component "supplies no policy, or only policy fields equal to the
defaults `{path: true, query: false, hash: false}`". -/
def isDefaultPolicy : Policy → Prop
  | .undefPolicy => True
  | .objPolicy p q h =>
      (p = none ∨ p = some (.bool true))
        ∧ (q = none ∨ q = some (.bool false))
        ∧ (h = none ∨ h = some (.bool false))
  | .fnPolicy _ => False

/-- Selects the `registerModule` collaborator calls out of a trace. -/
def isRegisterEv : StoreEvent → Bool
  | .registerModuleEv _ _ _ => true
  | _ => false

/-- Concatenation of split segments with `'/'` back between them; the left
inverse of `splitSlashList`. -/
def joinSlashList : List (List Char) → List Char
  | [] => []
  | [s] => s
  | s :: rest => s ++ '/' :: joinSlashList rest

/-! Concrete fixtures used by the claim theorems and their witnesses. -/

/-- Fixture: a route named `X` at path `/x`. -/
def routeX : Route := { name := some "X", path := "/x", fullPath := "/x" }

/-- Fixture: a module declaration whose function-valued `moduleName` reads
the key `route` (the key the specification claims is passed) out of its
context object. -/
def lookupRouteKeyDef : VuexModuleDef :=
  { moduleName := .fnName (fun ctx =>
      match ctx.lookup "route" with
      | some r => r.path
      | none => "missing"),
    module := 0 }

/-- Fixture: a destination route distinct from `gateOpenFromRoute` by name,
so every component passes the gate. -/
def gateOpenToRoute : Route := { name := some "B", path := "/b", fullPath := "/b" }

/-- Fixture: the source route of a name-changing transition. -/
def gateOpenFromRoute : Route := { name := some "A", path := "/a", fullPath := "/a" }

/-- Fixture: a component with no policy, no modules and no `fetchData`. -/
def plainComponent : Component := {}

/-- Fixture: matches `plainComponent` on the destination route only. -/
def drainScenarioMatcher : Route → List Component :=
  fun r => if r.name = some "B" then [plainComponent] else []

/-- Fixture: a store holding dynamic modules at `['a']` and `['a','b']`. -/
def drainScenarioStore : Store := { modules := [["a"], ["a", "b"]] }

/-- Fixture: a store with no dynamic modules and an empty state tree. -/
def emptyStore : Store := {}

/-- Fixture: destination of the `/d -> /d?foo=1` transition (same route
name and path, query added). -/
def queryOnlyToRoute : Route :=
  { name := some "d", path := "/d", query := [("foo", "1")], fullPath := "/d?foo=1" }

/-- Fixture: source of the `/d -> /d?foo=1` transition. -/
def queryOnlyFromRoute : Route := { name := some "d", path := "/d", fullPath := "/d" }

/-- Fixture: a default-policy component declaring one module. -/
def vuexComponentD : Component :=
  { vuex := some [{ moduleName := .strName "dmod", module := 3 }] }

/-- Fixture: matches `vuexComponentD` on every route. -/
def queryOnlyMatcher : Route → List Component := fun _ => [vuexComponentD]

/-- Fixture: a component whose `fetchData` rejects with the given value. -/
def rejectingComponent (e : JSValue) : Component := { fetchData := some (.error e) }

/-- Fixture: matches only the rejecting component, on every route. -/
def rejectingMatcher (e : JSValue) : Route → List Component := fun _ => [rejectingComponent e]

/-- Fixture: a component whose function policy always denies processing,
declaring one module — used to show the server variant ignores the gate. -/
def gateClosedComponent : Component :=
  { shouldProcessRouteUpdate := .fnPolicy (fun _ => .bool false),
    vuex := some [{ moduleName := .strName "m", module := 7 }] }

/-- Fixture: a component declaring the module `a`. -/
def activeVuexComponent : Component :=
  { vuex := some [{ moduleName := .strName "a", module := 1 }] }

/-- Fixture: matches `activeVuexComponent` on the destination route only. -/
def activeScenarioMatcher : Route → List Component :=
  fun r => if r.name = some "B" then [activeVuexComponent] else []

/-! Helper lemmas. -/

/-- JavaScript `split` never returns an empty array. -/
theorem splitSlashList_ne_nil (l : List Char) : splitSlashList l ≠ [] := by
  cases l with
  | nil => simp [splitSlashList]
  | cons c cs =>
    simp only [splitSlashList]
    split
    · simp
    · cases h : splitSlashList cs <;> simp

/-- Joining with `'/'` undoes splitting on `'/'`. -/
theorem joinSlashList_splitSlashList (l : List Char) :
    joinSlashList (splitSlashList l) = l := by
  induction l with
  | nil => rfl
  | cons c cs ih =>
    simp only [splitSlashList]
    by_cases hc : c = '/'
    · subst hc
      rw [if_pos rfl]
      cases h : splitSlashList cs with
      | nil => exact absurd h (splitSlashList_ne_nil cs)
      | cons s rest =>
        rw [h] at ih
        simp [joinSlashList, ih]
    · rw [if_neg hc]
      cases h : splitSlashList cs with
      | nil => exact absurd h (splitSlashList_ne_nil cs)
      | cons seg rest =>
        rw [h] at ih
        cases rest with
        | nil => simpa [joinSlashList] using ih
        | cons s2 r2 => simpa [joinSlashList] using ih

/-- Splitting on `'/'` is injective on character lists. -/
theorem splitSlashList_injective {a b : List Char}
    (h : splitSlashList a = splitSlashList b) : a = b := by
  have := congrArg joinSlashList h
  rwa [joinSlashList_splitSlashList, joinSlashList_splitSlashList] at this

/-- Two distinct module names have distinct split path-segment sequences. -/
theorem jsSplitSlash_injective {a b : String}
    (h : jsSplitSlash a = jsSplitSlash b) : a = b := by
  unfold jsSplitSlash at h
  have hd : splitSlashList a.data = splitSlashList b.data :=
    List.map_injective_iff.mpr (fun x y hxy => by
      simpa using congrArg String.data hxy) h
  exact String.ext (splitSlashList_injective hd)

/-- The drain loop requeues exactly the still-active names it processes, in
processing order. -/
theorem drainLoop_requeue (active : List String) (store : Store) (names : List String) :
    (drainLoop active store names).requeue = names.filter (fun n => active.contains n) := by
  induction names generalizing store with
  | nil => rfl
  | cons name rest ih =>
    simp only [drainLoop, List.filter_cons]
    by_cases hact : name ∈ active
    · simp [hact, ih]
    · by_cases hmod : store.hasModule (jsSplitSlash name)
      · simp [hact, hmod, ih]
      · simp [hact, hmod, ih]

/-- Every `unregisterModule` call the drain loop makes stems from a
processed name that is not in the active set. -/
theorem drainLoop_unregister_from_inactive (active : List String) (store : Store)
    (names : List String) (p : List String)
    (h : StoreEvent.unregisterModuleEv p ∈ (drainLoop active store names).events) :
    ∃ n, n ∈ names ∧ active.contains n = false ∧ p = jsSplitSlash n := by
  induction names generalizing store with
  | nil => simp [drainLoop] at h
  | cons name rest ih =>
    simp only [drainLoop] at h
    by_cases hact : name ∈ active
    · rw [if_pos (by simpa using hact)] at h
      simp only [List.mem_cons] at h
      rcases h with h | h
      · exact absurd h (by simp)
      · obtain ⟨n, hn, hna, hp⟩ := ih store h
        exact ⟨n, List.mem_cons_of_mem _ hn, hna, hp⟩
    · by_cases hmod : store.hasModule (jsSplitSlash name)
      · rw [if_neg (by simpa using hact), if_pos (by simpa using hmod)] at h
        simp only [List.mem_cons] at h
        rcases h with h | h | h
        · exact absurd h (by simp)
        · exact ⟨name, List.mem_cons_self _ _, by simp [hact], by injection h⟩
        · obtain ⟨n, hn, hna, hp⟩ := ih _ h
          exact ⟨n, List.mem_cons_of_mem _ hn, hna, hp⟩
      · rw [if_neg (by simpa using hact), if_neg (by simpa using hmod)] at h
        simp only [List.mem_cons] at h
        rcases h with h | h
        · exact absurd h (by simp)
        · obtain ⟨n, hn, hna, hp⟩ := ih store h
          exact ⟨n, List.mem_cons_of_mem _ hn, hna, hp⟩

/-- Membership after stable insertion. -/
theorem mem_insertByDepth {y x : String} {l : List String} :
    y ∈ insertByDepth x l ↔ y = x ∨ y ∈ l := by
  induction l with
  | nil => simp [insertByDepth]
  | cons z zs ih =>
    simp only [insertByDepth]
    split
    · simp only [List.mem_cons]
    · simp only [List.mem_cons, ih]
      tauto

/-- Stable insertion preserves depth-sortedness. -/
theorem insertByDepth_pairwise {x : String} {l : List String}
    (h : l.Pairwise (fun a b => depthOf a ≤ depthOf b)) :
    (insertByDepth x l).Pairwise (fun a b => depthOf a ≤ depthOf b) := by
  induction l with
  | nil => simp [insertByDepth]
  | cons z zs ih =>
    rcases List.pairwise_cons.mp h with ⟨hz, hzs⟩
    simp only [insertByDepth]
    by_cases hle : depthOf x ≤ depthOf z
    · rw [if_pos hle]
      refine List.pairwise_cons.mpr ⟨?_, h⟩
      intro b hb
      rcases List.mem_cons.mp hb with rfl | hb2
      · exact hle
      · exact le_trans hle (hz b hb2)
    · rw [if_neg hle]
      refine List.pairwise_cons.mpr ⟨?_, ih hzs⟩
      intro b hb
      rcases mem_insertByDepth.mp hb with rfl | hb2
      · exact le_of_not_le hle
      · exact hz b hb2

/-- The recomputed removal queue is ascending in path-segment depth. -/
theorem sortByDepth_pairwise (l : List String) :
    (sortByDepth l).Pairwise (fun a b => depthOf a ≤ depthOf b) := by
  induction l with
  | nil => simp [sortByDepth]
  | cons x xs ih => exact insertByDepth_pairwise ih

/-- Strict comparison of two boolean `JSValue`s. -/
theorem JSValue.beq_bool_bool (a b : Bool) : (JSValue.bool a == JSValue.bool b) = (a == b) := rfl

/-- A fold from a `null` accumulator stays `null`. -/
theorem foldl_moduleState_nullv (ks : List String) :
    List.foldl (fun acc k => if acc.truthy then acc.index k else .nullv) JSState.nullv ks
      = JSState.nullv := by
  induction ks with
  | nil => rfl
  | cons k ks ih => exact ih

/-- A fold from an `undefined` accumulator ends loosely null. -/
theorem foldl_moduleState_undef_isNonNull (ks : List String) :
    (List.foldl (fun acc k => if acc.truthy then acc.index k else .nullv)
        JSState.undefined ks).isNonNull = false := by
  cases ks with
  | nil => rfl
  | cons k ks => exact congrArg JSState.isNonNull (foldl_moduleState_nullv ks)

/-- Unfolds `specPreserveState` through `Option.map`/`Option.getD`. -/
theorem specPreserveState_eq (store : Store) (p : List String) :
    specPreserveState store p
      = ((lookupPath store.state p).map JSState.isNonNull).getD false := by
  unfold specPreserveState
  cases lookupPath store.state p <;> rfl

/-- Refinement: the source's `reduce`-based `getModuleState` dereference is
loosely non-null exactly when the specification-side key-by-key lookup finds
a non-null value. -/
theorem getModuleState_foldl_eq_lookupPath (p : List String) (st : JSState) :
    (List.foldl (fun acc k => if acc.truthy then acc.index k else .nullv) st p).isNonNull
      = ((lookupPath st p).map JSState.isNonNull).getD false := by
  induction p generalizing st with
  | nil => cases st <;> rfl
  | cons k ks ih =>
    cases st with
    | nullv => exact congrArg JSState.isNonNull (foldl_moduleState_nullv ks)
    | undefined => exact congrArg JSState.isNonNull (foldl_moduleState_nullv ks)
    | prim b =>
      cases b with
      | false => exact congrArg JSState.isNonNull (foldl_moduleState_nullv ks)
      | true => exact foldl_moduleState_undef_isNonNull ks
    | obj es =>
      have hfold : List.foldl (fun acc k2 => if acc.truthy then acc.index k2 else .nullv)
            (JSState.obj es) (k :: ks)
          = List.foldl (fun acc k2 => if acc.truthy then acc.index k2 else .nullv)
            ((es.lookup k).getD JSState.undefined) ks := rfl
      rw [hfold]
      cases hl : es.lookup k with
      | none =>
        have hlook : lookupPath (JSState.obj es) (k :: ks) = none := by
          simp only [lookupPath, hl]
        rw [hlook]
        exact foldl_moduleState_undef_isNonNull ks
      | some v =>
        have hlook : lookupPath (JSState.obj es) (k :: ks) = lookupPath v ks := by
          simp only [lookupPath, hl]
        rw [hlook]
        exact ih v

/-! Claim theorems. -/

/-- C1: in the post-commit (`afterEach`) hook, a name that belongs to the
union of the arriving route's and the just-left route's module names is
never passed to `store.unregisterModule` during that hook invocation, and if
it was drained from the queue it is moved to the requeue list instead. -/
theorem afterEach_active_module_never_unregistered
    (matcher : Route → List Component) (toR fromR : Route) (store : Store)
    (queue : List String) (name : String)
    (hactive : name ∈ routeModuleNames matcher toR ++ routeModuleNames matcher fromR) :
    StoreEvent.unregisterModuleEv (jsSplitSlash name)
        ∉ (useRouteVuexModulesClientAfterEach matcher toR fromR store queue).events ∧
    (name ∈ queue →
      name ∈ (drainLoop (routeModuleNames matcher toR ++ routeModuleNames matcher fromR)
          store queue.reverse).requeue) := by
  constructor
  · intro hmem
    simp only [useRouteVuexModulesClientAfterEach] at hmem
    split at hmem
    · simp at hmem
    · obtain ⟨n, hn, hna, hp⟩ := drainLoop_unregister_from_inactive _ _ _ _ hmem
      have : name = n := jsSplitSlash_injective hp
      subst this
      simp [hactive] at hna
  · intro hq
    rw [drainLoop_requeue]
    exact List.mem_filter.mpr ⟨List.mem_reverse.mpr hq, by simpa using hactive⟩

/-- Witness for C1: with module `a` active on the arriving route and queued,
the hook does not unregister `['a']` and requeues `"a"`. -/
theorem afterEach_active_module_never_unregistered_witness :
    StoreEvent.unregisterModuleEv (jsSplitSlash "a")
        ∉ (useRouteVuexModulesClientAfterEach activeScenarioMatcher gateOpenToRoute
            gateOpenFromRoute drainScenarioStore ["a"]).events ∧
    ("a" ∈ ["a"] →
      "a" ∈ (drainLoop (routeModuleNames activeScenarioMatcher gateOpenToRoute
          ++ routeModuleNames activeScenarioMatcher gateOpenFromRoute)
          drainScenarioStore (["a"] : List String).reverse).requeue) :=
  afterEach_active_module_never_unregistered activeScenarioMatcher gateOpenToRoute
    gateOpenFromRoute drainScenarioStore ["a"] "a" (by decide)

/-- C2: after a processed post-commit hook invocation the removal queue
equals the de-duplicated union of the requeued names and the current
`fromModuleNames` sorted ascending by path-segment depth (hence
depth-sorted), and — because the queue is drained from its tail — with
`"a"` and `"a/b"` both queued the deeper `['a','b']` is unregistered before
`['a']` on the following navigation. -/
theorem afterEach_queue_recompute (matcher : Route → List Component) (toR fromR : Route)
    (store : Store) (queue : List String)
    (h : 0 < ((getMatchedComponents matcher toR).filter
        (fun c => shouldProcessRouteUpdate c { fromRoute := fromR, route := toR })).length) :
    (useRouteVuexModulesClientAfterEach matcher toR fromR store queue).queue
        = sortByDepth (uniqJS
            ((drainLoop (routeModuleNames matcher toR ++ routeModuleNames matcher fromR)
                store queue.reverse).requeue ++ routeModuleNames matcher fromR)) ∧
    ((useRouteVuexModulesClientAfterEach matcher toR fromR store queue).queue).Pairwise
        (fun a b => depthOf a ≤ depthOf b) ∧
    (useRouteVuexModulesClientAfterEach drainScenarioMatcher gateOpenToRoute gateOpenFromRoute
        drainScenarioStore ["a", "a/b"]).events
      = [.logInfoEv "Unregistering dynamic Vuex module: a/b",
         .unregisterModuleEv ["a", "b"],
         .logInfoEv "Unregistering dynamic Vuex module: a",
         .unregisterModuleEv ["a"]] := by
  have hq : (useRouteVuexModulesClientAfterEach matcher toR fromR store queue).queue
      = sortByDepth (uniqJS
          ((drainLoop (routeModuleNames matcher toR ++ routeModuleNames matcher fromR)
              store queue.reverse).requeue ++ routeModuleNames matcher fromR)) := by
    simp [useRouteVuexModulesClientAfterEach, h]
  refine ⟨hq, ?_, ?_⟩
  · rw [hq]
    exact sortByDepth_pairwise _
  · rfl

/-- Witness for C2: the queue recompute and drain-order scenario evaluated
on the two-module store with queue `["a", "a/b"]`. -/
theorem afterEach_queue_recompute_witness :
    (useRouteVuexModulesClientAfterEach drainScenarioMatcher gateOpenToRoute gateOpenFromRoute
        drainScenarioStore ["a", "a/b"]).queue
      = sortByDepth (uniqJS
          ((drainLoop (routeModuleNames drainScenarioMatcher gateOpenToRoute
              ++ routeModuleNames drainScenarioMatcher gateOpenFromRoute)
              drainScenarioStore (["a", "a/b"] : List String).reverse).requeue
            ++ routeModuleNames drainScenarioMatcher gateOpenFromRoute)) ∧
    ((useRouteVuexModulesClientAfterEach drainScenarioMatcher gateOpenToRoute gateOpenFromRoute
        drainScenarioStore ["a", "a/b"]).queue).Pairwise
        (fun a b => depthOf a ≤ depthOf b) ∧
    (useRouteVuexModulesClientAfterEach drainScenarioMatcher gateOpenToRoute gateOpenFromRoute
        drainScenarioStore ["a", "a/b"]).events
      = [.logInfoEv "Unregistering dynamic Vuex module: a/b",
         .unregisterModuleEv ["a", "b"],
         .logInfoEv "Unregistering dynamic Vuex module: a",
         .unregisterModuleEv ["a"]] :=
  afterEach_queue_recompute drainScenarioMatcher gateOpenToRoute gateOpenFromRoute
    drainScenarioStore ["a", "a/b"] (by decide)

/-- C3 counterexample: the code invokes a function-valued `moduleName` with
the object `{ $route: route }`, not `{route: route}` as the claim states — a
function reading the key `route` observes the difference. -/
theorem getModuleName_route_key_counterexample :
    getModuleName lookupRouteKeyDef routeX ≠ claimGetModuleName lookupRouteKeyDef routeX := by
  decide

/-- C3 (amended): a function-valued `moduleName` is invoked with the single
argument `{$route: destinationRoute}`, a literal string is used as is, and
the resolved name is split on `/` before any store call — a component
declaring `moduleName: 'foo/bar/baz'` leads to a registering call receiving
the path `['foo','bar','baz']`. -/
theorem getModuleName_resolution_amended (f : List (String × Route) → String) (s : String)
    (r : Route) (m : Nat) (store : Store)
    (hnew : store.hasModule ["foo", "bar", "baz"] = false) :
    getModuleName ⟨.fnName f, m⟩ r = f [("$route", r)] ∧
    getModuleName ⟨.strName s, m⟩ r = s ∧
    StoreEvent.registerModuleEv ["foo", "bar", "baz"] m
        ((getModuleState store ["foo", "bar", "baz"]).isNonNull)
      ∈ (safelyRegisterModule store "foo/bar/baz" m).2 := by
  refine ⟨rfl, rfl, ?_⟩
  have hsplit : jsSplitSlash "foo/bar/baz" = ["foo", "bar", "baz"] := rfl
  unfold safelyRegisterModule
  rw [hsplit, if_neg (by simp [hnew])]
  simp

/-- Witness for C3 (amended): evaluated on an empty store. -/
theorem getModuleName_resolution_amended_witness :
    getModuleName ⟨.fnName (fun _ => "fn"), 5⟩ routeX = (fun _ => "fn") [("$route", routeX)] ∧
    getModuleName ⟨.strName "lit", 5⟩ routeX = "lit" ∧
    StoreEvent.registerModuleEv ["foo", "bar", "baz"] 5
        ((getModuleState emptyStore ["foo", "bar", "baz"]).isNonNull)
      ∈ (safelyRegisterModule emptyStore "foo/bar/baz" 5).2 :=
  getModuleName_resolution_amended (fun _ => "fn") "lit" routeX 5 emptyStore (by decide)

/-- C4: `safelyRegisterModule` skips (no `registerModule` call) when the
store already has a module at the split path — so registering the same path
twice in sequence yields exactly one `registerModule` call — and otherwise
makes exactly one `registerModule` call whose `preserveState` flag is true
iff the store's state tree holds a non-null value at the target path when
looked up key-by-key along the path segments. -/
theorem safelyRegisterModule_skip_count_preserve (store : Store) (name : String) (m : Nat) :
    (store.hasModule (jsSplitSlash name) = true →
      (safelyRegisterModule store name m).1 = store ∧
      ((safelyRegisterModule store name m).2.filter isRegisterEv) = []) ∧
    (store.hasModule (jsSplitSlash name) = false →
      ((safelyRegisterModule store name m).2.filter isRegisterEv)
        = [.registerModuleEv (jsSplitSlash name) m (specPreserveState store (jsSplitSlash name))] ∧
      (((safelyRegisterModule store name m).2
          ++ (safelyRegisterModule (safelyRegisterModule store name m).1 name m).2).filter
          isRegisterEv).length = 1) := by
  constructor
  · intro h
    unfold safelyRegisterModule
    rw [if_pos (by simp [h])]
    exact ⟨rfl, by simp [isRegisterEv]⟩
  · intro h
    have hpre : (getModuleState store (jsSplitSlash name)).isNonNull
        = specPreserveState store (jsSplitSlash name) := by
      rw [specPreserveState_eq]
      exact getModuleState_foldl_eq_lookupPath _ _
    have hfirst : safelyRegisterModule store name m
        = ((store.registerModule (jsSplitSlash name)),
           [.logInfoEv s!"Registering dynamic Vuex module: {name}",
            .registerModuleEv (jsSplitSlash name) m
              (specPreserveState store (jsSplitSlash name))]) := by
      unfold safelyRegisterModule
      rw [if_neg (by simp [h]), hpre]
    have hsecond : (store.registerModule (jsSplitSlash name)).hasModule (jsSplitSlash name)
        = true := by
      simp [Store.registerModule, Store.hasModule]
    constructor
    · rw [hfirst]
      simp [isRegisterEv]
    · rw [hfirst]
      unfold safelyRegisterModule
      rw [if_pos (by simp [hsecond])]
      simp [isRegisterEv]

/-- Witness for C4: on the empty store, registering `m` twice makes exactly
one `registerModule` call, with `preserveState` false. -/
theorem safelyRegisterModule_skip_count_preserve_witness :
    ((safelyRegisterModule emptyStore "m" 2).2.filter isRegisterEv
        = [.registerModuleEv ["m"] 2 false]) ∧
    (((safelyRegisterModule emptyStore "m" 2).2
        ++ (safelyRegisterModule (safelyRegisterModule emptyStore "m" 2).1 "m" 2).2).filter
        isRegisterEv).length = 1 :=
  (safelyRegisterModule_skip_count_preserve emptyStore "m" 2).2 (by decide)

/-- C5: for a transition keeping the route name, a component supplying no
policy or only default-valued policy fields is processed iff the path
changed — `shouldProcessRouteUpdate` returns false exactly when the path is
unchanged, ignoring query and hash. -/
theorem shouldProcess_default_policy_iff_path_changed (c : Component) (args : FetchDataArgs)
    (hname : args.fromRoute.name = args.route.name)
    (hpol : isDefaultPolicy c.shouldProcessRouteUpdate) :
    (shouldProcessRouteUpdate c args = false ↔ args.fromRoute.path = args.route.path) := by
  have hmerged : ∀ p q h, (p = none ∨ p = some (JSValue.bool true)) →
      (q = none ∨ q = some (JSValue.bool false)) →
      (h = none ∨ h = some (JSValue.bool false)) →
      mergedPolicyCheck p q h args = (args.fromRoute.path != args.route.path) := by
    rintro p q h (rfl | rfl) (rfl | rfl) (rfl | rfl) <;>
      simp [mergedPolicyCheck, JSValue.beq_bool_bool]
  unfold shouldProcessRouteUpdate
  rw [if_neg (by simp [hname])]
  cases hc : c.shouldProcessRouteUpdate with
  | fnPolicy f => rw [hc] at hpol; simp [isDefaultPolicy] at hpol
  | undefPolicy =>
    show mergedPolicyCheck none none none args = false ↔ _
    rw [hmerged none none none (Or.inl rfl) (Or.inl rfl) (Or.inl rfl)]
    simp [bne]
  | objPolicy p q h =>
    rw [hc] at hpol
    obtain ⟨hp, hq, hh⟩ := hpol
    show mergedPolicyCheck p q h args = false ↔ _
    rw [hmerged p q h hp hq hh]
    simp [bne]

/-- Witness for C5: on the `/d -> /d?foo=1` transition (same name, same
path, query changed) the default-policy gate evaluates to false. -/
theorem shouldProcess_default_policy_iff_path_changed_witness :
    shouldProcessRouteUpdate vuexComponentD
        { fromRoute := queryOnlyFromRoute, route := queryOnlyToRoute } = false
      ↔ queryOnlyFromRoute.path = queryOnlyToRoute.path :=
  shouldProcess_default_policy_iff_path_changed vuexComponentD
    { fromRoute := queryOnlyFromRoute, route := queryOnlyToRoute } (by decide) trivial

/-- C6: whenever the route names differ, `shouldProcessRouteUpdate` returns
true for every component and every policy — the policy is not consulted. -/
theorem shouldProcess_true_on_name_change (c : Component) (args : FetchDataArgs)
    (h : args.fromRoute.name ≠ args.route.name) :
    shouldProcessRouteUpdate c args = true := by
  unfold shouldProcessRouteUpdate
  rw [if_pos h]

/-- Witness for C6: even a component whose function policy always returns
false is processed on a name-changing transition. -/
theorem shouldProcess_true_on_name_change_witness :
    shouldProcessRouteUpdate gateClosedComponent
        { fromRoute := gateOpenFromRoute, route := gateOpenToRoute } = true :=
  shouldProcess_true_on_name_change gateClosedComponent
    { fromRoute := gateOpenFromRoute, route := gateOpenToRoute } (by decide)

/-- C7: if no matched destination component passes the gate, the post-commit
hook performs no deregistration work at all — the store, the emitted events
(none) and the removal queue are untouched. -/
theorem afterEach_skipped_when_no_component_passes_gate
    (matcher : Route → List Component) (toR fromR : Route) (store : Store)
    (queue : List String)
    (h : ((getMatchedComponents matcher toR).filter
        (fun c => shouldProcessRouteUpdate c { fromRoute := fromR, route := toR })).length = 0) :
    useRouteVuexModulesClientAfterEach matcher toR fromR store queue
      = ⟨store, [], queue⟩ := by
  simp [useRouteVuexModulesClientAfterEach, h]

/-- Witness for C7: the `/d -> /d?foo=1` transition under the default policy
leaves the store, events and queue unchanged. -/
theorem afterEach_skipped_when_no_component_passes_gate_witness :
    useRouteVuexModulesClientAfterEach queryOnlyMatcher queryOnlyToRoute queryOnlyFromRoute
        drainScenarioStore ["a"]
      = ⟨drainScenarioStore, [], ["a"]⟩ :=
  afterEach_skipped_when_no_component_passes_gate queryOnlyMatcher queryOnlyToRoute
    queryOnlyFromRoute drainScenarioStore ["a"] (by decide)

/-- C8: the client fetch pipeline normalises every non-`Error` rejection
before it reaches the router's cancellation callback — an `Error` passes
through unchanged, a string `s` becomes `new Error(s)`, the object
`{error:'oops'}` becomes `new Error('\x7b"error":"oops"\x7d')` — and for every
rejection value of a component `fetchData` the continuation receives the
normalised error, while the server variant propagates the rejection in its
original shape. -/
theorem fetch_error_normalization :
    (∀ m, normalizeClientFetchError (.error m) = .error m) ∧
    (∀ s, normalizeClientFetchError (.str s) = .error s) ∧
    (normalizeClientFetchError (.obj [("error", .str "oops")])
        = .error "\x7b\"error\":\"oops\"\x7d") ∧
    (∀ e : JSValue,
      useFetchDataClientResolve (rejectingMatcher e) none gateOpenToRoute gateOpenFromRoute
        = [.logDebugEv "Running middleware/fetchData for route update /a -> /b",
           .fetchDataCall 0,
           .logWarnEv "Error fetching component data, preventing routing",
           .nextCall (some (normalizeClientFetchError e))]) ∧
    (∀ e : JSValue, useFetchDataServer none [rejectingComponent e] = .error e) :=
  ⟨fun _ => rfl, fun _ => rfl, rfl, fun _ => rfl, fun _ => rfl⟩

/-- C9: if no matched destination component passes the gate, the client
fetch pipeline's `beforeResolve` hook short-circuits: no middleware, global
fetch, component fetch or post-middleware runs, and the continuation is
called exactly once with no value. -/
theorem fetch_pipeline_short_circuit (matcher : Route → List Component)
    (opts : Option FetchOpts) (toR fromR : Route)
    (h : ((getMatchedComponents matcher toR).filter
        (fun c => shouldProcessRouteUpdate c { fromRoute := fromR, route := toR })).length = 0) :
    useFetchDataClientResolve matcher opts toR fromR
      = [.logDebugEv s!"Ignoring route update {routeUpdateString toR fromR}", .nextCall none] := by
  simp [useFetchDataClientResolve, h]

/-- Witness for C9: the `/d -> /d?foo=1` transition under the default
policy only logs the skip and continues. -/
theorem fetch_pipeline_short_circuit_witness :
    useFetchDataClientResolve queryOnlyMatcher none queryOnlyToRoute queryOnlyFromRoute
      = [.logDebugEv "Ignoring route update /d -> /d?foo=1", .nextCall none] :=
  fetch_pipeline_short_circuit queryOnlyMatcher none queryOnlyToRoute queryOnlyFromRoute
    (by decide)

/-- C10: the server-side one-shot registration applies no gate — replacing
every component's `shouldProcessRouteUpdate` policy leaves its behaviour
unchanged, and a component whose policy always denies processing still gets
its declared module registered through the shared registration routine. -/
theorem server_registration_ignores_gate :
    (∀ (comps : List Component) (p : Policy) (r : Route) (store : Store),
      useRouteVuexModulesServer
          (comps.map (fun c => { c with shouldProcessRouteUpdate := p })) r store
        = useRouteVuexModulesServer comps r store) ∧
    ((useRouteVuexModulesServer [gateClosedComponent] routeX emptyStore).2.filter isRegisterEv
        = [.registerModuleEv ["m"] 7 false]) := by
  constructor
  · intro comps p r store
    unfold useRouteVuexModulesServer
    congr 1
    induction comps with
    | nil => rfl
    | cons c cs ih =>
      simp only [List.map_cons, List.filter_cons]
      by_cases hv : c.vuex.isSome
      · simp only [hv, if_pos]
        simp [hv, ih]
      · simp [hv, ih]
  · rfl
